import Mathlib

/-!
Verification of the Transmission front-end backend service layer
(`backend/src/services/transmission.js`, `backend/src/services/rss-manager.js`)
against its natural-language specification.

The JavaScript services are shallowly embedded: callbacks and promises become
explicit `Except`-valued environment fields, the mutable JSON store becomes an
explicit `Store` value threaded through the functions, timers become a small
explicit state machine, and side effects (HTTP fetches, torrent-add requests,
file writes) are recorded as events in a trace.  JavaScript string operations
are re-implemented structurally over `String.data` so that every definition
evaluates in the kernel.
-/

/-! ## JavaScript string / truthiness helpers -/

/-- JS truthiness of a possibly-missing string: `undefined`/`null` and `""`
are falsy, everything else truthy. -/
def jsStrTruthy : Option String → Bool
  | some s => !(s == "")
  | none => false

/-- JS truthiness of a possibly-missing number (`undefined` and `0` falsy). -/
def jsNumTruthy : Option Nat → Bool
  | some n => !(n == 0)
  | none => false

/-- Model of `s.startsWith(p)` (also the anchored regex `^p` applied by `.test`). -/
def strStartsWith (s p : String) : Bool :=
  p.data.isPrefixOf s.data

/-- Model of `s.endsWith(p)`. -/
def strEndsWith (s p : String) : Bool :=
  p.data.isSuffixOf s.data

/-- Model of `s.includes(sub)`. -/
def strIncludes (s sub : String) : Bool :=
  s.data.tails.any (fun t => sub.data.isPrefixOf t)

/-- ASCII lower-casing of one character (enough for the `/i` regex flags the
code uses, whose patterns are ASCII). -/
def asciiLower (c : Char) : Char :=
  if 65 ≤ c.toNat ∧ c.toNat ≤ 90 then Char.ofNat (c.toNat + 32) else c

/-- Case-insensitive `startsWith`, for the `/^fe80:/i`-style anchored regexes. -/
def strStartsWithCI (s p : String) : Bool :=
  (p.data.map asciiLower).isPrefixOf (s.data.map asciiLower)

/-! ## `rss-manager.js`: SSRF guard (`PRIVATE_IP_RANGES`, `isPrivateIP`) -/

/-- The regex `/^172\.(1[6-9]|2[0-9]|3[0-1])\./` (private class B block). -/
def privateClassB (ip : String) : Bool :=
  match ip.data with
  | '1' :: '7' :: '2' :: '.' :: a :: b :: '.' :: _ =>
    (a == '1' && ('6' ≤ b && b ≤ '9')) ||
    (a == '2' && ('0' ≤ b && b ≤ '9')) ||
    (a == '3' && (b == '0' || b == '1'))
  | _ => false

/-- Predicate `isPrivateIP`: the disjunction of the `PRIVATE_IP_RANGES` regex tests, in
source order. -/
def isPrivateIP (ip : String) : Bool :=
  strStartsWith ip "127." ||
  strStartsWith ip "10." ||
  privateClassB ip ||
  strStartsWith ip "192.168." ||
  strStartsWith ip "169.254." ||
  strStartsWith ip "0." ||
  strStartsWith ip "224." ||
  strStartsWith ip "240." ||
  ip == "::1" ||
  strStartsWithCI ip "fe80:" ||
  strStartsWithCI ip "fc00:" ||
  strStartsWithCI ip "fd00:"

/-! ## `rss-manager.js`: `parseFeed` pre-network guard phase -/

/-- The outcome of `new URL(url)`: the fields the guard reads. -/
structure UrlRef where
  protocol : String
  hostname : String
deriving DecidableEq

/-- A network egress event: an HTTP request actually leaving the process. -/
inductive NetEvent
  | fetch (url : String)
deriving DecidableEq

/-- The guard phase of `parseFeed` (everything before `fetch(url, ...)`):
protocol whitelist, DNS resolution (`dnsResult` is the outcome of
`dnsLookup(hostname)`), and the private-address rejection, including the
`catch` that maps other DNS failures to a hard error.  The second component
records the network requests issued: the `fetch` fires only when every guard
passed. -/
def parseFeedGuard (u : UrlRef) (dnsResult : Except String String) (url : String) :
    Except String Unit × List NetEvent :=
  if !(u.protocol == "http:" || u.protocol == "https:") then
    (.error "Only HTTP and HTTPS URLs are allowed", [])
  else
    match dnsResult with
    | .ok address =>
      if isPrivateIP address then
        (.error "Access to private/internal networks is not allowed", [])
      else
        (.ok (), [.fetch url])
    | .error e =>
      if strIncludes e "private" then (.error e, [])
      else (.error ("DNS lookup failed: " ++ e), [])

/-- C5: For every URL whose scheme is not plain HTTP/HTTPS, and for every
URL whose hostname resolves to a loopback, link-local, or private address
(including `127.0.0.1`, `169.254.x.x`, `10.x.x.x`), `parseFeed` fails before
any network request is sent; a DNS resolution failure is likewise a hard fetch
failure. -/
theorem parseFeed_egress_guard :
    (∀ (u : UrlRef) (dns : Except String String) (url : String),
      ¬(u.protocol = "http:" ∨ u.protocol = "https:") →
      (parseFeedGuard u dns url).2 = [] ∧
        ∃ e, (parseFeedGuard u dns url).1 = .error e)
  ∧ (∀ (u : UrlRef) (a : String) (url : String), isPrivateIP a = true →
      (parseFeedGuard u (.ok a) url).2 = [] ∧
        ∃ e, (parseFeedGuard u (.ok a) url).1 = .error e)
  ∧ (∀ (u : UrlRef) (e : String) (url : String),
      (parseFeedGuard u (.error e) url).2 = [] ∧
        ∃ e2, (parseFeedGuard u (.error e) url).1 = .error e2)
  ∧ isPrivateIP "127.0.0.1" = true
  ∧ isPrivateIP "169.254.33.44" = true
  ∧ isPrivateIP "10.11.12.13" = true := by
  refine ⟨?_, ?_, ?_, by decide, by decide, by decide⟩
  · intro u dns url h
    have hb : (u.protocol == "http:" || u.protocol == "https:") = false := by
      cases h1 : u.protocol == "http:" <;> cases h2 : u.protocol == "https:" <;> simp_all
    cases dns with
    | ok a =>
      exact ⟨by simp [parseFeedGuard, hb],
        ⟨"Only HTTP and HTTPS URLs are allowed", by simp [parseFeedGuard, hb]⟩⟩
    | error e =>
      exact ⟨by simp [parseFeedGuard, hb],
        ⟨"Only HTTP and HTTPS URLs are allowed", by simp [parseFeedGuard, hb]⟩⟩
  · intro u a url hp
    by_cases hb : (u.protocol == "http:" || u.protocol == "https:") = true <;>
      simp [parseFeedGuard, hb, hp]
  · intro u e url
    by_cases hb : (u.protocol == "http:" || u.protocol == "https:") = true <;>
      by_cases hp : strIncludes e "private" = true <;>
        simp [parseFeedGuard, hb, hp]

/-- Witness for C5: the guard at concrete inputs — an `ftp:` URL, a hostname
resolving to `127.0.0.1`, and a failing DNS lookup all issue no network
request. -/
theorem parseFeed_egress_guard_witness :
    (parseFeedGuard ⟨"ftp:", "h"⟩ (.ok "8.8.8.8") "ftp://h/feed").2 = []
  ∧ (parseFeedGuard ⟨"http:", "h"⟩ (.ok "127.0.0.1") "http://h/feed").2 = []
  ∧ (parseFeedGuard ⟨"http:", "h"⟩ (.error "ENOTFOUND") "http://h/feed").2 = [] :=
  ⟨(parseFeed_egress_guard.1 ⟨"ftp:", "h"⟩ (.ok "8.8.8.8") "ftp://h/feed"
      (by decide)).1,
   (parseFeed_egress_guard.2.1 ⟨"http:", "h"⟩ "127.0.0.1" "http://h/feed"
      (by decide)).1,
   (parseFeed_egress_guard.2.2.1 ⟨"http:", "h"⟩ "ENOTFOUND" "http://h/feed").1⟩

/-! ## `rss-manager.js`: the persisted feed store -/

/-- The per-feed match rule set (`feed.rules`).  `maxSize` defaults to
`Number.MAX_SAFE_INTEGER` in `addFeed`. -/
structure Rules where
  regex : String
  minSize : Nat
  maxSize : Nat
  category : String
deriving DecidableEq

/-- A configured feed record. -/
structure Feed where
  id : Nat
  url : String
  rules : Rules
  added_at : String
  last_poll : Option String
  matched_count : Nat
deriving DecidableEq

/-- A seen-ledger entry (`data.seenItems[hash]`). -/
structure SeenRecord where
  feed_id : Nat
  seen_at : String
deriving DecidableEq

/-- The persisted store (`rss-feeds.json`): feeds, the seen-ledger (a JS
object keyed by item hash, modelled as an association list whose first match
wins), and the next feed identifier. -/
structure Store where
  feeds : List Feed
  seenItems : List (String × SeenRecord)
  nextId : Nat
deriving DecidableEq

/-- The empty valid state `{ feeds: [], seenItems: {}, nextId: 1 }`. -/
def emptyStore : Store := { feeds := [], seenItems := [], nextId := 1 }

/-- What `JSON.parse` can yield for the store file: either a value of the
expected store shape, or some other JSON value (e.g. the file contains
`null` or `[]`), carried here as its source text. -/
inductive StoreDoc
  | store (s : Store)
  | nonStore (jsonText : String)
deriving DecidableEq

/-- Function `load()`: `readFileSync` + `JSON.parse`, modelled by `raw` (`.error` when
reading or parsing throws).  On an exception the empty state is returned; a
successfully parsed JSON value is returned as-is, whatever its shape. -/
def load (raw : Except String StoreDoc) : StoreDoc :=
  match raw with
  | .error _ => .store emptyStore
  | .ok doc => doc

/-- Counterexample for C8: a store file whose content is the JSON text
`null` is readable and parseable, hence `load` returns that non-store value
verbatim instead of the empty valid state (and every downstream field access
on it would throw). -/
theorem load_nonstore_counterexample :
    load (.ok (.nonStore "null")) = .nonStore "null" ∧
      load (.ok (.nonStore "null")) ≠ .store emptyStore := by
  constructor
  · rfl
  · decide

/-- C8 (amended): `load` returns the empty valid state (no feeds, empty
seen-ledger, next identifier 1) exactly when reading or JSON-parsing the
store file throws; content that parses as JSON is returned unvalidated,
even when it is not of the store shape. -/
theorem load_recovers_empty_state :
    (∀ e : String, load (.error e) = .store emptyStore)
  ∧ (∀ doc : StoreDoc, load (.ok doc) = doc) :=
  ⟨fun _ => rfl, fun _ => rfl⟩

/-- Function `deleteFeed(id)`: `findIndex` then `splice(i, 1)` and save; a missing
identifier throws `'Feed not found'`. -/
def deleteFeed (data : Store) (id : Nat) : Except String Store :=
  match data.feeds.findIdx? (fun f => f.id == id) with
  | none => .error "Feed not found"
  | some i => .ok { data with feeds := data.feeds.eraseIdx i }

/-- Erasing the index found by `findIdx?` removes the unique element
satisfying the predicate: with exactly one match, the result is the filter
by the negated predicate. -/
theorem eraseIdx_findIdx?_of_unique {α : Type} (p : α → Bool) :
    ∀ (l : List α) (i : Nat), l.findIdx? p = some i →
      (l.filter p).length = 1 → l.eraseIdx i = l.filter (fun a => !p a) := by
  intro l
  induction l with
  | nil => intro i h; simp [List.findIdx?] at h
  | cons a t ih =>
    intro i hfind hlen
    by_cases hpa : p a = true
    · have h0 : i = 0 := by
        rw [List.findIdx?_cons, if_pos hpa] at hfind
        exact (Option.some_inj.mp hfind).symm
      subst h0
      have hnil : t.filter p = [] := by
        have := hlen
        rw [List.filter_cons_of_pos hpa] at this
        simpa using this
      have hall : ∀ x ∈ t, ¬ p x = true := List.filter_eq_nil_iff.mp hnil
      have hself : t.filter (fun a => !p a) = t :=
        List.filter_eq_self.mpr (fun x hx => by simp [hall x hx])
      simp [List.eraseIdx, List.filter_cons_of_neg, hpa, hself]
    · have hpa' : p a = false := by simpa using hpa
      rw [List.findIdx?_cons, if_neg (by simp [hpa'])] at hfind
      rw [List.findIdx?_succ] at hfind
      cases hf : t.findIdx? p with
      | none => rw [hf] at hfind; simp at hfind
      | some j =>
        rw [hf] at hfind
        simp at hfind
        have hlen' : (t.filter p).length = 1 := by
          rw [List.filter_cons_of_neg (by simp [hpa'])] at hlen
          exact hlen
        have hrec := ih j hf hlen'
        rw [← hfind]
        simp [List.eraseIdx, hpa', hrec]

/-- C9: For every feed identifier present (uniquely, per the store's
monotone-id invariant) in the store, `deleteFeed` removes exactly that feed
record and leaves every seen-ledger entry, every other feed, and the
next-identifier counter unchanged — deleting a feed never un-seens any
item. -/
theorem deleteFeed_frame (data : Store) (id : Nat)
    (h : (data.feeds.filter (fun f => f.id == id)).length = 1) :
    ∃ s', deleteFeed data id = .ok s' ∧
      s'.seenItems = data.seenItems ∧
      s'.nextId = data.nextId ∧
      s'.feeds = data.feeds.filter (fun f => !(f.id == id)) ∧
      (∀ f ∈ data.feeds, f.id ≠ id → f ∈ s'.feeds) ∧
      (∀ f ∈ s'.feeds, f.id ≠ id) := by
  have hex : ∃ f ∈ data.feeds, (fun f : Feed => f.id == id) f = true := by
    by_contra hno
    push_neg at hno
    have : data.feeds.filter (fun f => f.id == id) = [] :=
      List.filter_eq_nil_iff.mpr (by intro a ha; simp [hno a ha])
    rw [this] at h
    simp at h
  have hsome : (data.feeds.findIdx? (fun f => f.id == id)).isSome = true := by
    rw [List.findIdx?_isSome]
    obtain ⟨f, hf, hp⟩ := hex
    exact List.any_eq_true.mpr ⟨f, hf, hp⟩
  obtain ⟨i, hi⟩ := Option.isSome_iff_exists.mp hsome
  refine ⟨{ data with feeds := data.feeds.eraseIdx i }, ?_, rfl, rfl, ?_, ?_, ?_⟩
  · simp [deleteFeed, hi]
  · exact eraseIdx_findIdx?_of_unique _ data.feeds i hi h
  · intro f hf hne
    have : f ∈ data.feeds.filter (fun f => !(f.id == id)) :=
      List.mem_filter.mpr ⟨hf, by simp [hne]⟩
    simpa [eraseIdx_findIdx?_of_unique _ data.feeds i hi h] using this
  · intro f hf
    have : f ∈ data.feeds.filter (fun f => !(f.id == id)) := by
      simpa [eraseIdx_findIdx?_of_unique _ data.feeds i hi h] using hf
    have := (List.mem_filter.mp this).2
    simpa using this

/-- Witness for C9: deleting feed 2 from a two-feed store keeps feed 1, the
seen-ledger, and the counter. -/
theorem deleteFeed_frame_witness :
    ∃ s', deleteFeed
        { feeds := [{ id := 1, url := "http://a/f", rules := ⟨".*", 0, 9007199254740991, ""⟩,
                      added_at := "t1", last_poll := none, matched_count := 0 },
                    { id := 2, url := "http://b/f", rules := ⟨".*", 0, 9007199254740991, ""⟩,
                      added_at := "t2", last_poll := none, matched_count := 3 }],
          seenItems := [("h1", ⟨1, "t3"⟩)], nextId := 3 } 2 = .ok s' ∧
      s'.seenItems = [("h1", ⟨1, "t3"⟩)] ∧
      s'.nextId = 3 ∧
      s'.feeds = [{ id := 1, url := "http://a/f", rules := ⟨".*", 0, 9007199254740991, ""⟩,
                    added_at := "t1", last_poll := none, matched_count := 0 }] := by
  obtain ⟨s', h1, h2, h3, h4, -, -⟩ := deleteFeed_frame
    { feeds := [{ id := 1, url := "http://a/f", rules := ⟨".*", 0, 9007199254740991, ""⟩,
                  added_at := "t1", last_poll := none, matched_count := 0 },
                { id := 2, url := "http://b/f", rules := ⟨".*", 0, 9007199254740991, ""⟩,
                  added_at := "t2", last_poll := none, matched_count := 3 }],
      seenItems := [("h1", ⟨1, "t3"⟩)], nextId := 3 } 2 (by decide)
  exact ⟨s', h1, h2, h3, by rw [h4]; decide⟩

/-! ## `rss-manager.js`: `matchesRules` -/

/-- An RSS enclosure as the matcher reads it (`url`, `type`, `length`);
missing fields are `none`, the declared length modelled as a number. -/
structure Enclosure where
  url : Option String
  type : Option String
  length : Option Nat
deriving DecidableEq

/-- A feed item as produced by `parseFeed` and consumed by the scheduler. -/
structure Item where
  title : String
  link : Option String
  guid : Option String
  description : Option String := none
  enclosures : List Enclosure := []
deriving DecidableEq

/-- The result record of `matchesRules`; `matched` renders the source field
`matches` (a reserved word here). -/
structure MatchResult where
  matched : Bool
  reason : Option String := none
  torrentUrl : Option String := none
deriving DecidableEq

/-- The `enclosures.find(...)` predicate: torrent MIME type, or URL ending in
`.torrent`. -/
def isTorrentEnclosure (e : Enclosure) : Bool :=
  (e.type == some "application/x-bittorrent") ||
  (match e.url with | some u => strEndsWith u ".torrent" | none => false)

/-- The fixed set of download-path markers checked on the item link
(method 3). -/
def containsDownloadMarker (l : String) : Bool :=
  strIncludes l "/download/" ||
  strIncludes l "action=download" ||
  strIncludes l "rss_dl.php" ||
  strIncludes l "/dl/" ||
  strIncludes l "download.php"

/-- The declared size: the matching enclosure's `length` (the only source of
`torrentSize` in the function). -/
def declaredTorrentSize (item : Item) : Option Nat :=
  (item.enclosures.find? isTorrentEnclosure).bind (fun e => e.length)

/-- The download-URL derivation chain of `matchesRules`: method 1 (matching
enclosure's URL), else method 2 (item link ending in `.torrent`), else
method 3 (item link containing a download marker). -/
def deriveTorrentUrl (item : Item) : Option String :=
  let url1 : Option String := (item.enclosures.find? isTorrentEnclosure).bind (fun e => e.url)
  let url2 : Option String :=
    if !(jsStrTruthy url1) && (jsStrTruthy item.link && strEndsWith (item.link.getD "") ".torrent")
    then item.link else url1
  if !(jsStrTruthy url2) && (jsStrTruthy item.link && containsDownloadMarker (item.link.getD ""))
  then item.link else url2

/-- Function `matchesRules(item, rules)`.  The regex engine is external: `compileRegex`
maps a pattern to its case-insensitive matcher, or to `none` when
`new RegExp` throws — which the surrounding `try/catch` converts to reason
`"error"`. -/
def matchesRules (compileRegex : String → Option (String → Bool))
    (item : Item) (rules : Rules) : MatchResult :=
  match compileRegex rules.regex with
  | none => { matched := false, reason := some "error" }
  | some test =>
    if !(test item.title) then { matched := false, reason := some "regex" }
    else
      let torrentUrl := deriveTorrentUrl item
      let torrentSize := declaredTorrentSize item
      if !(jsStrTruthy torrentUrl) then
        { matched := false, reason := some "no-torrent-link" }
      else if jsNumTruthy torrentSize then
        let size := torrentSize.getD 0
        if size < rules.minSize || size > rules.maxSize then
          { matched := false, reason := some "size" }
        else { matched := true, torrentUrl := torrentUrl }
      else { matched := true, torrentUrl := torrentUrl }

/-- C4: `matchesRules` evaluates in short-circuit order: title against the
rule's pattern first (failure → reason `"regex"`); then URL derivation in
priority order — torrent enclosure, link ending `.torrent`, link with a known
download marker — (no candidate → reason `"no-torrent-link"`); then, only
when a declared size is known, the size must lie in
`[minSize, maxSize]` inclusive (outside → reason `"size"`), while an absent
declared size skips the size check and passes. -/
theorem matchesRules_short_circuit (cr : String → Option (String → Bool))
    (item : Item) (rules : Rules) (test : String → Bool)
    (hc : cr rules.regex = some test) :
    (test item.title = false →
      matchesRules cr item rules = { matched := false, reason := some "regex" })
  ∧ (test item.title = true → jsStrTruthy (deriveTorrentUrl item) = false →
      matchesRules cr item rules = { matched := false, reason := some "no-torrent-link" })
  ∧ (∀ size : Nat, test item.title = true → jsStrTruthy (deriveTorrentUrl item) = true →
      declaredTorrentSize item = some size → size ≠ 0 →
      (size < rules.minSize ∨ size > rules.maxSize) →
      matchesRules cr item rules = { matched := false, reason := some "size" })
  ∧ (∀ size : Nat, test item.title = true → jsStrTruthy (deriveTorrentUrl item) = true →
      declaredTorrentSize item = some size → size ≠ 0 →
      rules.minSize ≤ size → size ≤ rules.maxSize →
      matchesRules cr item rules =
        { matched := true, torrentUrl := deriveTorrentUrl item })
  ∧ (test item.title = true → jsStrTruthy (deriveTorrentUrl item) = true →
      jsNumTruthy (declaredTorrentSize item) = false →
      matchesRules cr item rules =
        { matched := true, torrentUrl := deriveTorrentUrl item })
  ∧ ((jsStrTruthy ((item.enclosures.find? isTorrentEnclosure).bind (fun e => e.url)) = true →
        deriveTorrentUrl item = (item.enclosures.find? isTorrentEnclosure).bind (fun e => e.url))
     ∧ (jsStrTruthy ((item.enclosures.find? isTorrentEnclosure).bind (fun e => e.url)) = false →
        jsStrTruthy item.link = true → strEndsWith (item.link.getD "") ".torrent" = true →
        deriveTorrentUrl item = item.link)
     ∧ (jsStrTruthy ((item.enclosures.find? isTorrentEnclosure).bind (fun e => e.url)) = false →
        ¬(jsStrTruthy item.link = true ∧ strEndsWith (item.link.getD "") ".torrent" = true) →
        jsStrTruthy item.link = true → containsDownloadMarker (item.link.getD "") = true →
        deriveTorrentUrl item = item.link)) := by
  refine ⟨?_, ?_, ?_, ?_, ?_, ?_, ?_, ?_⟩
  · intro hf; simp [matchesRules, hc, hf]
  · intro ht hu; simp [matchesRules, hc, ht, hu]
  · intro size ht hu hsz hnz hout
    have hnum : jsNumTruthy (some size) = true := by
      simp [jsNumTruthy, hnz]
    have hout' : (size < rules.minSize || size > rules.maxSize) = true := by
      rcases hout with h | h <;> simp [h]
    simp [matchesRules, hc, ht, hu, hnum, hsz, hout']
  · intro size ht hu hsz hnz hmin hmax
    have hnum : jsNumTruthy (some size) = true := by
      simp [jsNumTruthy, hnz]
    have hin : (size < rules.minSize || size > rules.maxSize) = false := by
      simp [Nat.not_lt.mpr hmin, Nat.not_lt.mpr hmax]
    simp [matchesRules, hc, ht, hu, hnum, hsz, hin]
  · intro ht hu hnum; simp [matchesRules, hc, ht, hu, hnum]
  · intro h1; simp [deriveTorrentUrl, h1]
  · intro h1 hl he; simp [deriveTorrentUrl, h1, hl, he]
  · intro h1 hne hl hm
    have he : strEndsWith (item.link.getD "") ".torrent" = false := by
      by_cases h : strEndsWith (item.link.getD "") ".torrent" = true
      · exact absurd ⟨hl, h⟩ hne
      · simpa using h
    simp [deriveTorrentUrl, h1, hl, he, hm]

/-- Witness for C4: a concrete item with a torrent enclosure of declared size
500 against a rule with window `[100, 1000]` matches with the enclosure
URL. -/
theorem matchesRules_short_circuit_witness :
    matchesRules (fun _ => some (fun t => t == "Show.S01E01"))
        { title := "Show.S01E01", link := some "http://t/item/1",
          guid := some "g1",
          enclosures := [{ url := some "http://t/a.torrent",
                           type := some "application/x-bittorrent",
                           length := some 500 }] }
        { regex := "S01E01", minSize := 100, maxSize := 1000, category := "" } =
      { matched := true, torrentUrl := some "http://t/a.torrent" } := by
  have h := (matchesRules_short_circuit (fun _ => some (fun t => t == "Show.S01E01"))
    { title := "Show.S01E01", link := some "http://t/item/1",
      guid := some "g1",
      enclosures := [{ url := some "http://t/a.torrent",
                       type := some "application/x-bittorrent",
                       length := some 500 }] }
    { regex := "S01E01", minSize := 100, maxSize := 1000, category := "" }
    (fun t => t == "Show.S01E01") rfl).2.2.2.1 500
    (by decide) (by decide) (by decide) (by decide) (by decide) (by decide)
  rw [h]
  decide

/-! ## `rss-manager.js`: item fingerprints and `pollFeed` -/

/-- The chain `item.guid || item.link || item.title` — the fallback chain hashed by
`getItemHash`. -/
def hashSource (item : Item) : String :=
  if jsStrTruthy item.guid then item.guid.getD ""
  else if jsStrTruthy item.link then item.link.getD ""
  else item.title

/-- Function `getItemHash`: MD5 of the fallback chain.  The digest function itself is
external native code, supplied as `md5`. -/
def getItemHash (md5 : String → String) (item : Item) : String :=
  md5 (hashSource item)

/-- A torrent as reported by the engine's `list` RPC (the fields this layer
reads).  Completion is the fraction `percentDone` (1 = complete). -/
structure EngineTorrent where
  id : Nat
  name : String
  hashString : String
  percentDone : ℚ := 0
  totalSize : Nat := 0
deriving DecidableEq

/-- The engine's answer to a successful `addUrl`. -/
structure AddedTorrent where
  id : Nat
  hashString : String
deriving DecidableEq

/-- The ambient effects `pollFeed` interacts with: the digest, the regex
engine, the engine's current torrent list, the outcome of each torrent-add
request, and the current timestamp. -/
structure PollEnv where
  md5 : String → String
  compileRegex : String → Option (String → Bool)
  existingTorrents : List EngineTorrent
  addTorrentUrl : String → Except String AddedTorrent
  now : String

/-- One element of the `results` array `pollFeed` returns. -/
structure PollResult where
  success : Bool
  title : String
  torrentId : Option Nat := none
  error : Option String := none
deriving DecidableEq

/-- Observable side effects of a poll, in program order.  `addUrl` records
the torrent-add request leaving the process, instrumented with the item's
fingerprint and the in-memory seen-ledger at the moment the request is
issued; `persist` is a `save(data)` write of the whole store file. -/
inductive PollEvent
  | addUrl (url : String) (itemHash : String) (memSeen : List (String × SeenRecord))
  | setMeta (hashString : String) (userId : Nat) (source : String) (feedId : Nat)
  | persist (s : Store)
deriving DecidableEq

/-- The loop state of `pollFeed`: the in-memory seen-ledger, the results
array, the counters, the feed's `matched_count` increments, and the effect
trace so far. -/
structure PollAcc where
  seen : List (String × SeenRecord)
  results : List PollResult
  matchedDelta : Nat
  skippedAlreadySeen : Nat
  skippedNoMatch : Nat
  skippedAlreadyExists : Nat
  addedNew : Nat
  failedToAdd : Nat
  trace : List PollEvent
deriving DecidableEq

/-- The body of `for (const item of items)` in `pollFeed`: skip if seen; mark
seen in memory; rule match; live-duplicate check by display name; then the
add request, metadata write and counter update on success, or the failure
record. -/
def pollItemStep (env : PollEnv) (feedId : Nat) (rules : Rules)
    (acc : PollAcc) (item : Item) : PollAcc :=
  let hash := getItemHash env.md5 item
  if (acc.seen.lookup hash).isSome then
    { acc with skippedAlreadySeen := acc.skippedAlreadySeen + 1 }
  else
    let seen' := (hash, { feed_id := feedId, seen_at := env.now }) :: acc.seen
    let m := matchesRules env.compileRegex item rules
    if !m.matched then
      { acc with seen := seen', skippedNoMatch := acc.skippedNoMatch + 1 }
    else if env.existingTorrents.any (fun t => t.name == item.title) then
      { acc with seen := seen', skippedAlreadyExists := acc.skippedAlreadyExists + 1 }
    else
      let url := m.torrentUrl.getD ""
      match env.addTorrentUrl url with
      | .ok torrent =>
        { acc with
          seen := seen',
          trace := acc.trace ++
            [.addUrl url hash seen', .setMeta torrent.hashString 0 "rss-auto" feedId],
          results := acc.results ++
            [{ success := true, title := item.title, torrentId := some torrent.id }],
          matchedDelta := acc.matchedDelta + 1,
          addedNew := acc.addedNew + 1 }
      | .error e =>
        { acc with
          seen := seen',
          trace := acc.trace ++ [.addUrl url hash seen'],
          results := acc.results ++
            [{ success := false, title := item.title, error := some e }],
          failedToAdd := acc.failedToAdd + 1 }

/-- What `pollFeed` yields on success: the saved store and the results plus
counters, with the trace of effects. -/
structure PollOutcome where
  store : Store
  results : List PollResult
  trace : List PollEvent
  skippedAlreadySeen : Nat
  skippedNoMatch : Nat
  skippedAlreadyExists : Nat
  addedNew : Nat
  failedToAdd : Nat
deriving DecidableEq

/-- The loop state at entry: the ledger loaded from the store, everything
else empty. -/
def initAcc (data : Store) : PollAcc :=
  { seen := data.seenItems, results := [], matchedDelta := 0,
    skippedAlreadySeen := 0, skippedNoMatch := 0, skippedAlreadyExists := 0,
    addedNew := 0, failedToAdd := 0, trace := [] }

/-- The success path of `pollFeed` once the feed was found: run the per-item
loop, then set `last_poll`, fold the `matched_count` increments into the
feed, and persist everything in one `save` — the single `persist` event,
after the whole loop. -/
def pollFeedRun (env : PollEnv) (data : Store) (feedId : Nat) (feed : Feed)
    (items : List Item) : PollOutcome :=
  let acc := items.foldl (pollItemStep env feedId feed.rules) (initAcc data)
  let feed' := { feed with matched_count := feed.matched_count + acc.matchedDelta,
                           last_poll := some env.now }
  let store' : Store := { data with
    feeds := data.feeds.map (fun f => if f.id == feedId then feed' else f),
    seenItems := acc.seen }
  { store := store', results := acc.results,
    trace := acc.trace ++ [.persist store'],
    skippedAlreadySeen := acc.skippedAlreadySeen,
    skippedNoMatch := acc.skippedNoMatch,
    skippedAlreadyExists := acc.skippedAlreadyExists,
    addedNew := acc.addedNew, failedToAdd := acc.failedToAdd }

/-- Function `pollFeed(feedId)` on a successfully fetched document `items`:
find the feed (else throw `'Feed not found'`), then run the loop and
persist. -/
def pollFeed (env : PollEnv) (data : Store) (feedId : Nat) (items : List Item) :
    Except String PollOutcome :=
  match data.feeds.find? (fun f => f.id == feedId) with
  | none => .error "Feed not found"
  | some feed => .ok (pollFeedRun env data feedId feed items)

/-- The `matched_count` of the feed with the given identifier. -/
def feedMatchedCount (s : Store) (feedId : Nat) : Option Nat :=
  (s.feeds.find? (fun f => f.id == feedId)).map (fun f => f.matched_count)

/-- In the already-seen branch the step only bumps the counter. -/
theorem pollItemStep_already_seen (env : PollEnv) (feedId : Nat) (rules : Rules)
    (acc : PollAcc) (item : Item)
    (h1 : ((acc.seen.lookup (getItemHash env.md5 item)).isSome) = true) :
    pollItemStep env feedId rules acc item =
      { acc with skippedAlreadySeen := acc.skippedAlreadySeen + 1 } := by
  simp [pollItemStep, h1]

/-- On a not-yet-seen item the step marks the fingerprint seen in memory,
whatever happens afterwards. -/
theorem pollItemStep_seen_of_not_seen (env : PollEnv) (feedId : Nat) (rules : Rules)
    (acc : PollAcc) (item : Item)
    (h1 : ((acc.seen.lookup (getItemHash env.md5 item)).isSome) = false) :
    (pollItemStep env feedId rules acc item).seen =
      (getItemHash env.md5 item, { feed_id := feedId, seen_at := env.now }) :: acc.seen := by
  by_cases h2 : (matchesRules env.compileRegex item rules).matched = true
  · by_cases h3 : (env.existingTorrents.any (fun t => t.name == item.title)) = true
    · simp [pollItemStep, h1, h2, h3]
    · cases h4 : env.addTorrentUrl
        ((matchesRules env.compileRegex item rules).torrentUrl.getD "") with
      | ok t => simp [pollItemStep, h1, h2, h3, h4]
      | error e => simp [pollItemStep, h1, h2, h3, h4]
  · simp [pollItemStep, h1, h2]

/-- The step never un-seens a fingerprint. -/
theorem pollItemStep_seen_mono (env : PollEnv) (feedId : Nat) (rules : Rules)
    (acc : PollAcc) (item : Item) (k : String)
    (h : ((acc.seen.lookup k).isSome) = true) :
    (((pollItemStep env feedId rules acc item).seen.lookup k).isSome) = true := by
  by_cases h1 : ((acc.seen.lookup (getItemHash env.md5 item)).isSome) = true
  · rw [pollItemStep_already_seen env feedId rules acc item h1]
    exact h
  · rw [pollItemStep_seen_of_not_seen env feedId rules acc item (Bool.eq_false_iff.mpr h1)]
    by_cases hk : (k == getItemHash env.md5 item) = true <;> simp [List.lookup, hk, h]

/-- The whole loop never un-seens a fingerprint. -/
theorem pollFold_seen_mono (env : PollEnv) (feedId : Nat) (rules : Rules) :
    ∀ (items : List Item) (acc : PollAcc) (k : String),
      ((acc.seen.lookup k).isSome) = true →
      (((items.foldl (pollItemStep env feedId rules) acc).seen.lookup k).isSome) = true := by
  intro items
  induction items with
  | nil => intro acc k h; simpa using h
  | cons a rest ih =>
    intro acc k h
    rw [List.foldl_cons]
    exact ih _ k (pollItemStep_seen_mono env feedId rules acc a k h)

/-- After the loop, every processed item's fingerprint is in the in-memory
seen-ledger. -/
theorem pollFold_all_seen (env : PollEnv) (feedId : Nat) (rules : Rules) :
    ∀ (items : List Item) (acc : PollAcc), ∀ it ∈ items,
      ((((items.foldl (pollItemStep env feedId rules) acc).seen.lookup
        (getItemHash env.md5 it)).isSome)) = true := by
  intro items
  induction items with
  | nil => intro acc it h; simp at h
  | cons a rest ih =>
    intro acc it h
    rw [List.foldl_cons]
    rcases List.mem_cons.mp h with rfl | hmem
    · have hpres : (((pollItemStep env feedId rules acc it).seen.lookup
          (getItemHash env.md5 it)).isSome) = true := by
        by_cases h1 : ((acc.seen.lookup (getItemHash env.md5 it)).isSome) = true
        · exact pollItemStep_seen_mono env feedId rules acc it _ h1
        · rw [pollItemStep_seen_of_not_seen env feedId rules acc it (Bool.eq_false_iff.mpr h1)]
          simp [List.lookup]
      exact pollFold_seen_mono env feedId rules rest _ _ hpres
    · exact ih (pollItemStep env feedId rules acc a) it hmem

/-- A loop over items whose fingerprints are all in the ledger does nothing
except count them as already-seen. -/
theorem pollFold_all_already_seen (env : PollEnv) (feedId : Nat) (rules : Rules) :
    ∀ (items : List Item) (acc : PollAcc),
      (∀ it ∈ items, ((acc.seen.lookup (getItemHash env.md5 it)).isSome) = true) →
      items.foldl (pollItemStep env feedId rules) acc =
        { acc with skippedAlreadySeen := acc.skippedAlreadySeen + items.length } := by
  intro items
  induction items with
  | nil => intro acc h; simp
  | cons a rest ih =>
    intro acc h
    rw [List.foldl_cons, pollItemStep_already_seen env feedId rules acc a (h a (by simp))]
    have hrec := ih { acc with skippedAlreadySeen := acc.skippedAlreadySeen + 1 }
      (fun it hit => h it (List.mem_cons_of_mem _ hit))
    rw [hrec]
    simp [PollAcc.mk.injEq]
    omega

/-- The two trace invariants maintained by the loop: no `persist` is emitted
inside the loop, and each add request happens with the item's fingerprint
already in the in-memory ledger. -/
def traceInv (tr : List PollEvent) : Prop :=
  (∀ s, PollEvent.persist s ∉ tr) ∧
  (∀ url hsh mem, PollEvent.addUrl url hsh mem ∈ tr → ((mem.lookup hsh).isSome) = true)

/-- The step preserves the trace invariants. -/
theorem pollItemStep_traceInv (env : PollEnv) (feedId : Nat) (rules : Rules)
    (acc : PollAcc) (item : Item) (h : traceInv acc.trace) :
    traceInv (pollItemStep env feedId rules acc item).trace := by
  by_cases h1 : ((acc.seen.lookup (getItemHash env.md5 item)).isSome) = true
  · rw [pollItemStep_already_seen env feedId rules acc item h1]; exact h
  · by_cases h2 : (matchesRules env.compileRegex item rules).matched = true
    · by_cases h3 : (env.existingTorrents.any (fun t => t.name == item.title)) = true
      · have : (pollItemStep env feedId rules acc item).trace = acc.trace := by
          simp [pollItemStep, h1, h2, h3]
        rw [this]; exact h
      · cases h4 : env.addTorrentUrl
          ((matchesRules env.compileRegex item rules).torrentUrl.getD "") with
        | ok t =>
          have htr : (pollItemStep env feedId rules acc item).trace = acc.trace ++
              [.addUrl ((matchesRules env.compileRegex item rules).torrentUrl.getD "")
                  (getItemHash env.md5 item)
                  ((getItemHash env.md5 item,
                    ({ feed_id := feedId, seen_at := env.now } : SeenRecord)) :: acc.seen),
               .setMeta t.hashString 0 "rss-auto" feedId] := by
            simp [pollItemStep, h1, h2, h3, h4]
          rw [htr]
          constructor
          · intro s hs
            rcases List.mem_append.mp hs with hin | hin
            · exact h.1 s hin
            · simp at hin
          · intro url hsh mem hmem
            rcases List.mem_append.mp hmem with hin | hin
            · exact h.2 url hsh mem hin
            · simp at hin
              obtain ⟨hu, hh, hm⟩ := hin
              subst hh; subst hm
              simp [List.lookup]
        | error e =>
          have htr : (pollItemStep env feedId rules acc item).trace = acc.trace ++
              [.addUrl ((matchesRules env.compileRegex item rules).torrentUrl.getD "")
                  (getItemHash env.md5 item)
                  ((getItemHash env.md5 item,
                    ({ feed_id := feedId, seen_at := env.now } : SeenRecord)) :: acc.seen)] := by
            simp [pollItemStep, h1, h2, h3, h4]
          rw [htr]
          constructor
          · intro s hs
            rcases List.mem_append.mp hs with hin | hin
            · exact h.1 s hin
            · simp at hin
          · intro url hsh mem hmem
            rcases List.mem_append.mp hmem with hin | hin
            · exact h.2 url hsh mem hin
            · simp at hin
              obtain ⟨hu, hh, hm⟩ := hin
              subst hh; subst hm
              simp [List.lookup]
    · have : (pollItemStep env feedId rules acc item).trace = acc.trace := by
        simp [pollItemStep, h1, h2]
      rw [this]; exact h

/-- The whole loop preserves the trace invariants. -/
theorem pollFold_traceInv (env : PollEnv) (feedId : Nat) (rules : Rules) :
    ∀ (items : List Item) (acc : PollAcc), traceInv acc.trace →
      traceInv ((items.foldl (pollItemStep env feedId rules) acc)).trace := by
  intro items
  induction items with
  | nil => intro acc h; simpa using h
  | cons a rest ih =>
    intro acc h
    rw [List.foldl_cons]
    exact ih _ (pollItemStep_traceInv env feedId rules acc a h)

/-- Replacing the feed with a given identifier by a record carrying the same
identifier commutes with looking the feed up. -/
theorem find?_replace_feed (feed' : Feed) (feedId : Nat)
    (hid : (feed'.id == feedId) = true) :
    ∀ l : List Feed, ((l.find? (fun f => f.id == feedId)).isSome) = true →
      (l.map (fun f => if f.id == feedId then feed' else f)).find?
        (fun f => f.id == feedId) = some feed' := by
  intro l
  induction l with
  | nil => intro h; simp at h
  | cons a t ih =>
    intro h
    by_cases hpa : (a.id == feedId) = true
    · simp only [List.map_cons, if_pos hpa]
      exact List.find?_cons_of_pos _ hid
    · have ht : ((t.find? (fun f => f.id == feedId)).isSome) = true := by
        rw [List.find?_cons_of_neg _ (by simpa using hpa)] at h
        exact h
      simp only [List.map_cons, if_neg hpa]
      rw [List.find?_cons_of_neg _ (by simpa using hpa)]
      exact ih ht

/-- C2 (amended): Within a poll cycle, every item's fingerprint is in the
*in-memory* seen-ledger when (and before) its download request is issued,
and the ledger delta is persisted exactly once, by the single end-of-cycle
`save` that closes the trace — so the marking-seen is durable only after the
whole cycle, not before each download request. -/
theorem pollFeed_seen_in_memory_persist_at_end (env : PollEnv) (data : Store)
    (feedId : Nat) (items : List Item) (out : PollOutcome)
    (h : pollFeed env data feedId items = .ok out) :
    (∀ url hsh mem, PollEvent.addUrl url hsh mem ∈ out.trace →
      ((mem.lookup hsh).isSome) = true)
  ∧ out.trace.getLast? = some (.persist out.store)
  ∧ (∀ s, PollEvent.persist s ∈ out.trace → s = out.store)
  ∧ (∀ it ∈ items, ((out.store.seenItems.lookup (getItemHash env.md5 it)).isSome) = true) := by
  cases hf : data.feeds.find? (fun f => f.id == feedId) with
  | none => simp [pollFeed, hf] at h
  | some feed =>
    simp only [pollFeed, hf] at h
    have hout : out = pollFeedRun env data feedId feed items := by
      cases h; rfl
    subst hout
    have hinv : traceInv ((items.foldl (pollItemStep env feedId feed.rules)
        (initAcc data))).trace :=
      pollFold_traceInv env feedId feed.rules items (initAcc data)
        ⟨by simp [initAcc], by simp [initAcc]⟩
    refine ⟨?_, ?_, ?_, ?_⟩
    · intro url hsh mem hmem
      have : PollEvent.addUrl url hsh mem ∈
          ((items.foldl (pollItemStep env feedId feed.rules) (initAcc data))).trace := by
        rcases List.mem_append.mp hmem with hin | hin
        · exact hin
        · simp at hin
      exact hinv.2 url hsh mem this
    · show (_ ++ [PollEvent.persist _]).getLast? = _
      rw [List.getLast?_append]
      rfl
    · intro s hs
      rcases List.mem_append.mp hs with hin | hin
      · exact absurd hin (hinv.1 s)
      · have h1 := List.mem_singleton.mp hin
        injection h1 with h2
    · intro it hit
      exact pollFold_all_seen env feedId feed.rules items (initAcc data) it hit

/-- A fixed poll environment for concrete runs: identity digest, an
always-matching compiled pattern, an empty engine list, and an engine that
accepts every add. -/
def pollEnvA : PollEnv :=
  { md5 := fun s => s,
    compileRegex := fun _ => some (fun _ => true),
    existingTorrents := [],
    addTorrentUrl := fun _ => .ok { id := 7, hashString := "torrenthash" },
    now := "2026-01-01T00:00:00Z" }

/-- A feed record with identifier 1 and match-all rules. -/
def feedA : Feed :=
  { id := 1, url := "http://example.org/feed",
    rules := { regex := ".*", minSize := 0,
               maxSize := 9007199254740991, category := "" },
    added_at := "t0", last_poll := none, matched_count := 0 }

/-- A store with one feed (`feedA`) and an empty seen-ledger. -/
def storeA : Store :=
  { feeds := [feedA], seenItems := [], nextId := 2 }

/-- A feed item with a torrent enclosure. -/
def itemA : Item :=
  { title := "Show.S01E01", link := some "http://example.org/item",
    guid := some "g-1",
    enclosures := [{ url := some "http://example.org/a.torrent",
                     type := some "application/x-bittorrent",
                     length := some 500 }] }

/-- Witness for C2: on the concrete one-item poll the single persist event
closes the trace and carries the final store. -/
theorem pollFeed_seen_in_memory_persist_at_end_witness :
    (pollFeedRun pollEnvA storeA 1 feedA [itemA]).trace.getLast? =
      some (.persist (pollFeedRun pollEnvA storeA 1 feedA [itemA]).store) := by
  have h : pollFeed pollEnvA storeA 1 [itemA] =
      .ok (pollFeedRun pollEnvA storeA 1 feedA [itemA]) := rfl
  exact (pollFeed_seen_in_memory_persist_at_end pollEnvA storeA 1 [itemA] _ h).2.1

/-- The property C2 claims: before each download request is issued, a store
containing the item's fingerprint has already been persisted. -/
def persistedBeforeEachAdd (tr : List PollEvent) : Prop :=
  ∀ i url hsh mem, tr.get? i = some (.addUrl url hsh mem) →
    ∃ j s, j < i ∧ tr.get? j = some (.persist s) ∧
      ((s.seenItems.lookup hsh).isSome) = true

/-- The trace of a poll run, empty when the poll threw. -/
def pollTraceOf (r : Except String PollOutcome) : List PollEvent :=
  match r with
  | .ok o => o.trace
  | .error _ => []

/-- Counterexample for C2: in the concrete one-item poll the download request
is the very first effect — no `persist` (and hence no durable seen-mark)
precedes it; the only save happens at the end of the cycle. -/
theorem pollFeed_not_durable_before_request :
    ¬ persistedBeforeEachAdd (pollTraceOf (pollFeed pollEnvA storeA 1 [itemA])) := by
  intro hP
  obtain ⟨j, s, hj, hje, hsk⟩ := hP 0 "http://example.org/a.torrent" "g-1"
    [("g-1", { feed_id := 1, seen_at := "2026-01-01T00:00:00Z" })] rfl
  exact Nat.not_lt_zero j hj

/-- A poll over items whose fingerprints are all already in the store's
ledger: no results, no adds, no failures, everything counted already-seen,
the trace just the final persist, and the feed rewritten with an unchanged
(`+ 0`) matched count. -/
theorem pollFeedRun_all_seen (env : PollEnv) (data : Store) (feedId : Nat)
    (feed : Feed) (items : List Item)
    (hallseen : ∀ it ∈ items,
      ((data.seenItems.lookup (getItemHash env.md5 it)).isSome) = true) :
    (pollFeedRun env data feedId feed items).results = [] ∧
    (pollFeedRun env data feedId feed items).addedNew = 0 ∧
    (pollFeedRun env data feedId feed items).failedToAdd = 0 ∧
    (pollFeedRun env data feedId feed items).skippedAlreadySeen = items.length ∧
    (pollFeedRun env data feedId feed items).trace =
      [.persist (pollFeedRun env data feedId feed items).store] ∧
    (pollFeedRun env data feedId feed items).store.feeds =
      data.feeds.map (fun f => if f.id == feedId then
        { feed with matched_count := feed.matched_count + 0,
                    last_poll := some env.now } else f) := by
  have hacc : items.foldl (pollItemStep env feedId feed.rules) (initAcc data) =
      { initAcc data with skippedAlreadySeen := 0 + items.length } :=
    pollFold_all_already_seen env feedId feed.rules items (initAcc data)
      (by simpa [initAcc] using hallseen)
  refine ⟨?_, ?_, ?_, ?_, ?_, ?_⟩ <;>
    · simp only [pollFeedRun, hacc]
      simp [initAcc]

/-- C6: Polling a feed twice in succession against the same feed
document, the first poll completing and persisting its state, yields zero
new download requests on the second poll — every item is counted
already-seen, no add request is issued — and leaves the feed's matched-item
counter unchanged. -/
theorem pollFeed_idempotent (env1 env2 : PollEnv) (hmd5 : env1.md5 = env2.md5)
    (data : Store) (feedId : Nat) (items : List Item) (out1 : PollOutcome)
    (h1 : pollFeed env1 data feedId items = .ok out1) :
    ∃ out2, pollFeed env2 out1.store feedId items = .ok out2 ∧
      out2.results = [] ∧ out2.addedNew = 0 ∧ out2.failedToAdd = 0 ∧
      out2.skippedAlreadySeen = items.length ∧
      (∀ url hsh mem, PollEvent.addUrl url hsh mem ∉ out2.trace) ∧
      feedMatchedCount out2.store feedId = feedMatchedCount out1.store feedId := by
  cases hf : data.feeds.find? (fun f => f.id == feedId) with
  | none => simp [pollFeed, hf] at h1
  | some feed =>
    simp only [pollFeed, hf] at h1
    have hout : out1 = pollFeedRun env1 data feedId feed items := by
      cases h1; rfl
    subst hout
    have hid0 := List.find?_some hf
    have hid : (feed.id == feedId) = true := by simpa using hid0
    have hsome : ((data.feeds.find? (fun f => f.id == feedId)).isSome) = true := by
      rw [hf]; rfl
    have hfind1 : ((pollFeedRun env1 data feedId feed items).store.feeds.find?
        (fun f => f.id == feedId)) =
        some { feed with
          matched_count := feed.matched_count +
            (items.foldl (pollItemStep env1 feedId feed.rules) (initAcc data)).matchedDelta,
          last_poll := some env1.now } :=
      find?_replace_feed
        { feed with
          matched_count := feed.matched_count +
            (items.foldl (pollItemStep env1 feedId feed.rules) (initAcc data)).matchedDelta,
          last_poll := some env1.now } feedId hid data.feeds hsome
    have hallseen : ∀ it ∈ items,
        ((((pollFeedRun env1 data feedId feed items).store.seenItems).lookup
          (getItemHash env2.md5 it)).isSome) = true := by
      intro it hit
      rw [← hmd5]
      exact pollFold_all_seen env1 feedId feed.rules items (initAcc data) it hit
    obtain ⟨hres, hadd, hfail, hseen, htr, hfeeds⟩ :=
      pollFeedRun_all_seen env2 (pollFeedRun env1 data feedId feed items).store feedId
        { feed with
          matched_count := feed.matched_count +
            (items.foldl (pollItemStep env1 feedId feed.rules) (initAcc data)).matchedDelta,
          last_poll := some env1.now } items hallseen
    refine ⟨pollFeedRun env2 (pollFeedRun env1 data feedId feed items).store feedId
      { feed with
        matched_count := feed.matched_count +
          (items.foldl (pollItemStep env1 feedId feed.rules) (initAcc data)).matchedDelta,
        last_poll := some env1.now } items, ?_, hres, hadd, hfail, hseen, ?_, ?_⟩
    · simp [pollFeed, hfind1]
    · intro url hsh mem hmem
      rw [htr] at hmem
      simp at hmem
    · have hsome1 : (((pollFeedRun env1 data feedId feed items).store.feeds.find?
          (fun f => f.id == feedId)).isSome) = true := by
        rw [hfind1]; rfl
      have hfind2 := find?_replace_feed
        { { feed with
            matched_count := feed.matched_count +
              (items.foldl (pollItemStep env1 feedId feed.rules) (initAcc data)).matchedDelta,
            last_poll := some env1.now } with
          matched_count := ({ feed with
            matched_count := feed.matched_count +
              (items.foldl (pollItemStep env1 feedId feed.rules) (initAcc data)).matchedDelta,
            last_poll := some env1.now } : Feed).matched_count + 0,
          last_poll := some env2.now } feedId (by simpa using hid)
        (pollFeedRun env1 data feedId feed items).store.feeds hsome1
      rw [feedMatchedCount, feedMatchedCount, hfind1]
      rw [hfeeds, hfind2]
      simp

/-- Witness for C6: the concrete one-item poll of `storeA`, run twice; the
second run reports one already-seen item, no results, and the same
matched-count. -/
theorem pollFeed_idempotent_witness :
    ∃ out2, pollFeed pollEnvA (pollFeedRun pollEnvA storeA 1 feedA [itemA]).store
        1 [itemA] = .ok out2 ∧
      out2.results = [] ∧ out2.addedNew = 0 ∧ out2.failedToAdd = 0 ∧
      out2.skippedAlreadySeen = 1 ∧
      (∀ url hsh mem, PollEvent.addUrl url hsh mem ∉ out2.trace) ∧
      feedMatchedCount out2.store 1 =
        feedMatchedCount (pollFeedRun pollEnvA storeA 1 feedA [itemA]).store 1 := by
  have h := pollFeed_idempotent pollEnvA pollEnvA rfl storeA 1 [itemA]
    (pollFeedRun pollEnvA storeA 1 feedA [itemA]) rfl
  simpa using h

/-! ## `transmission.js`: debounced restart and `removeTorrent` -/

/-- The module-level debounce state: `restartTimeout` (is a timer armed?),
`restartPromise` (identity of the pending promise shared by callers), and an
instrumentation counter of how many restart timers were ever created. -/
structure RestartState where
  timeoutActive : Bool
  pendingPromise : Option Nat
  restartsScheduled : Nat
deriving DecidableEq

/-- Function `scheduleTransmissionRestart()`: if a timer is armed, return the existing
pending promise without scheduling; otherwise create one new timer and
promise and return it. -/
def scheduleTransmissionRestart (s : RestartState) : Option Nat × RestartState :=
  if s.timeoutActive then (s.pendingPromise, s)
  else
    (some (s.restartsScheduled + 1),
     { timeoutActive := true, pendingPromise := some (s.restartsScheduled + 1),
       restartsScheduled := s.restartsScheduled + 1 })

/-- The timer callback firing (after the 3-second quiet period): it clears
`restartTimeout` and `restartPromise`. -/
def restartTimerFire (s : RestartState) : RestartState :=
  { timeoutActive := false, pendingPromise := none,
    restartsScheduled := s.restartsScheduled }

/-- The `TRANSMISSION_CONFIG_DIR` default. -/
def TRANSMISSION_CONFIG_DIR : String :=
  "/var/lib/transmission-daemon/.config/transmission-daemon"

/-- Model of `path.join` for the two-segment joins the code performs. -/
def pathJoin (a b : String) : String := a ++ "/" ++ b

/-- The pre-removal detail snapshot (`getTorrentDetails`), fields as read by
`removeTorrent` (with `percentDone || 0` already applied). -/
structure TorrentDetails where
  hashString : String
  name : String
  downloadDir : Option String := none
  percentDone : ℚ := 0
deriving DecidableEq

/-- The session settings `removeTorrent` reads for the incomplete folder. -/
structure SessionInfo where
  downloadDir : Option String := none
  incompleteDir : Option String := none
  incompleteDirEnabled : Bool := false
deriving DecidableEq

/-- File-system and engine operations the workaround path attempts. -/
inductive FsOp
  | stopTorrent
  | unlinkResume (path : String)
  | unlinkTorrentFile (path : String)
  | rmDownload (path : String)
  | rmIncomplete (path : String)
deriving DecidableEq

/-- Outcomes of the engine and file-system calls `removeTorrent` awaits.
Every field except `details`, `removeCall`, `verifyFindsTorrent` and
`session` is wrapped in its own `try/catch` that only logs, so those
outcomes never influence control flow — the workaround is best-effort and a
failed deletion does not abort the remaining steps. -/
structure RemoveEnv where
  details : Except String TorrentDetails
  removeCall : Except String Unit
  verifyFindsTorrent : Bool
  stopCall : Except String Unit
  unlinkResumeResult : Except String Unit
  unlinkTorrentResult : Except String Unit
  rmDownloadResult : Except String Unit
  session : Except String SessionInfo
  rmIncompleteResult : Except String Unit

/-- What the JS function resolves with. -/
structure RemoveResult where
  success : Bool
deriving DecidableEq

/-- The function's resolution value plus instrumentation: whether the
workaround ran, which operations it attempted, and whether it asked for a
restart. -/
structure RemoveOutcome where
  result : RemoveResult
  workaroundUsed : Bool
  attemptedOps : List FsOp
  restartScheduled : Bool
deriving DecidableEq

/-- Function `removeTorrent(id, deleteFiles)`: snapshot details (errors logged,
leaving the hash `null`); native RPC remove, verified by re-querying the
torrent after a settling delay; if that failed *and* a hash is known, the
manual workaround: stop, delete resume/torrent state files, optionally the
downloaded and (for incomplete torrents) partial data, then a debounced
restart request and a client reset.  It always resolves `{ success: true }`. -/
def removeTorrent (env : RemoveEnv) (deleteFiles : Bool) (rs : RestartState) :
    RemoveOutcome × RestartState :=
  let torrentHash : Option String :=
    match env.details with | .ok t => some t.hashString | .error _ => none
  let downloadDir : Option String :=
    match env.details with | .ok t => t.downloadDir | .error _ => none
  let torrentName : Option String :=
    match env.details with | .ok t => some t.name | .error _ => none
  let percentDone : ℚ :=
    match env.details with | .ok t => t.percentDone | .error _ => 0
  let normalRemovalSucceeded : Bool :=
    match env.removeCall with
    | .error _ => false
    | .ok _ => !env.verifyFindsTorrent
  if !normalRemovalSucceeded && jsStrTruthy torrentHash then
    let hash := torrentHash.getD ""
    let ops0 : List FsOp :=
      [.stopTorrent,
       .unlinkResume (pathJoin (pathJoin TRANSMISSION_CONFIG_DIR "resume")
         (hash ++ ".resume")),
       .unlinkTorrentFile (pathJoin (pathJoin TRANSMISSION_CONFIG_DIR "torrents")
         (hash ++ ".torrent"))]
    let ops1 : List FsOp :=
      if deleteFiles && (jsStrTruthy downloadDir && jsStrTruthy torrentName) then
        ops0 ++ [.rmDownload (pathJoin (downloadDir.getD "") (torrentName.getD ""))] ++
          (match env.session with
           | .ok s =>
             if s.incompleteDirEnabled &&
                 (jsStrTruthy s.incompleteDir && decide (percentDone < 1)) then
               [.rmIncomplete (pathJoin (s.incompleteDir.getD "") (torrentName.getD ""))]
             else []
           | .error _ => [])
      else ops0
    let sched := scheduleTransmissionRestart rs
    ({ result := { success := true }, workaroundUsed := true,
       attemptedOps := ops1, restartScheduled := true }, sched.2)
  else
    ({ result := { success := true }, workaroundUsed := false,
       attemptedOps := [], restartScheduled := false }, rs)

/-- The debounce state before anything is pending. -/
def restartIdle : RestartState :=
  { timeoutActive := false, pendingPromise := none, restartsScheduled := 0 }

/-- An environment in which the engine is unreachable: both the pre-removal
detail query and the native RPC remove reject. -/
def unreachableEnv : RemoveEnv :=
  { details := .error "connect ECONNREFUSED 127.0.0.1:9091",
    removeCall := .error "connect ECONNREFUSED 127.0.0.1:9091",
    verifyFindsTorrent := false,
    stopCall := .error "connect ECONNREFUSED 127.0.0.1:9091",
    unlinkResumeResult := .ok (), unlinkTorrentResult := .ok (),
    rmDownloadResult := .ok (),
    session := .error "connect ECONNREFUSED 127.0.0.1:9091",
    rmIncompleteResult := .ok () }

/-- Counterexample for C1: with the engine unreachable for both the detail
query and the native remove, `removeTorrent` still resolves
`{ success: true }` — nothing is surfaced to the caller, and no fallback
ran either. -/
theorem removeTorrent_unreachable_reports_success :
    (removeTorrent unreachableEnv true restartIdle).1.result.success = true ∧
    (removeTorrent unreachableEnv true restartIdle).1.workaroundUsed = false ∧
    (removeTorrent unreachableEnv true restartIdle).2 = restartIdle :=
  ⟨rfl, rfl, rfl⟩

/-- C1 (amended): `removeTorrent` always resolves `{ success: true }`:
every engine error is caught and logged, never surfaced; when the detail
query failed (no hash snapshot) the workaround is skipped entirely, so an
engine-unreachable removal is silently reported as successful. -/
theorem removeTorrent_always_success (env : RemoveEnv) (df : Bool)
    (rs : RestartState) :
    ((removeTorrent env df rs).1.result.success = true)
  ∧ (∀ e, env.details = .error e →
      (removeTorrent env df rs).1.workaroundUsed = false ∧
      (removeTorrent env df rs).2 = rs) := by
  constructor
  · simp only [removeTorrent]
    split <;> rfl
  · intro e he
    constructor <;> simp [removeTorrent, he, jsStrTruthy]

/-- Witness for C1: the amended theorem applied to the unreachable-engine
environment. -/
theorem removeTorrent_always_success_witness :
    (removeTorrent unreachableEnv false restartIdle).1.result.success = true ∧
    (removeTorrent unreachableEnv false restartIdle).1.workaroundUsed = false :=
  ⟨(removeTorrent_always_success unreachableEnv false restartIdle).1,
   ((removeTorrent_always_success unreachableEnv false restartIdle).2
      "connect ECONNREFUSED 127.0.0.1:9091" rfl).1⟩

/-- The condition under which `removeTorrent` enters the workaround path:
the native removal failed (rejected, or the torrent still resolves on
re-query) and a truthy hash snapshot exists. -/
def triggersWorkaround (env : RemoveEnv) : Bool :=
  (match env.removeCall with
   | .ok _ => env.verifyFindsTorrent
   | .error _ => true) &&
  (match env.details with
   | .ok t => !(t.hashString == "")
   | .error _ => false)

/-- On the workaround path, `removeTorrent` requests the debounced restart
and threads the state through `scheduleTransmissionRestart`. -/
theorem removeTorrent_workaround (env : RemoveEnv) (df : Bool)
    (rs : RestartState) (h : triggersWorkaround env = true) :
    (removeTorrent env df rs).1.restartScheduled = true ∧
    (removeTorrent env df rs).1.workaroundUsed = true ∧
    (removeTorrent env df rs).2 = (scheduleTransmissionRestart rs).2 := by
  cases hd : env.details with
  | error e => simp [triggersWorkaround, hd] at h
  | ok t =>
    cases hr : env.removeCall with
    | ok u =>
      rw [triggersWorkaround, hd, hr] at h
      simp only [Bool.and_eq_true] at h
      obtain ⟨hv, hh⟩ := h
      refine ⟨?_, ?_, ?_⟩ <;> simp [removeTorrent, hd, hr, hv, jsStrTruthy, hh]
    | error e =>
      rw [triggersWorkaround, hd, hr] at h
      simp only [Bool.and_eq_true] at h
      obtain ⟨-, hh⟩ := h
      refine ⟨?_, ?_, ?_⟩ <;> simp [removeTorrent, hd, hr, jsStrTruthy, hh]

/-- C7: At most one restart is pending: scheduling while a restart is
pending returns the existing promise and changes nothing; and three
workaround removals within the debounce window (no timer fire in between)
create exactly one restart, the second and third sharing the first's pending
state. -/
theorem removal_workaround_single_restart (e1 e2 e3 : RemoveEnv) (df : Bool)
    (s0 : RestartState) (h0 : s0.timeoutActive = false)
    (h1 : triggersWorkaround e1 = true) (h2 : triggersWorkaround e2 = true)
    (h3 : triggersWorkaround e3 = true) :
    (∀ s : RestartState, s.timeoutActive = true →
      scheduleTransmissionRestart s = (s.pendingPromise, s))
  ∧ ((removeTorrent e3 df (removeTorrent e2 df (removeTorrent e1 df s0).2).2).2).restartsScheduled
      = s0.restartsScheduled + 1
  ∧ (removeTorrent e2 df (removeTorrent e1 df s0).2).2 = (removeTorrent e1 df s0).2
  ∧ (removeTorrent e3 df (removeTorrent e2 df (removeTorrent e1 df s0).2).2).2
      = (removeTorrent e1 df s0).2
  ∧ (removeTorrent e1 df s0).1.restartScheduled = true
  ∧ (removeTorrent e2 df (removeTorrent e1 df s0).2).1.restartScheduled = true := by
  have w1 := removeTorrent_workaround e1 df s0 h1
  have hs1 : (removeTorrent e1 df s0).2 =
      { timeoutActive := true, pendingPromise := some (s0.restartsScheduled + 1),
        restartsScheduled := s0.restartsScheduled + 1 } := by
    rw [w1.2.2]
    simp [scheduleTransmissionRestart, h0]
  have w2 := removeTorrent_workaround e2 df (removeTorrent e1 df s0).2 h2
  have hs2 : (removeTorrent e2 df (removeTorrent e1 df s0).2).2 =
      (removeTorrent e1 df s0).2 := by
    rw [w2.2.2, hs1]
    simp [scheduleTransmissionRestart]
  have w3 := removeTorrent_workaround e3 df
    (removeTorrent e2 df (removeTorrent e1 df s0).2).2 h3
  have hs3 : (removeTorrent e3 df (removeTorrent e2 df (removeTorrent e1 df s0).2).2).2
      = (removeTorrent e1 df s0).2 := by
    rw [w3.2.2, hs2, hs1]
    simp [scheduleTransmissionRestart]
  refine ⟨fun s hs => by simp [scheduleTransmissionRestart, hs],
    ?_, hs2, hs3, w1.1, w2.1⟩
  rw [hs3, hs1]

/-- An environment exhibiting the engine's remove bug: the RPC call
succeeds but the torrent still resolves afterwards. -/
def workaroundEnv : RemoveEnv :=
  { details := .ok { hashString := "abcdef0123456789", name := "Show.S01E01",
                     downloadDir := some "/downloads", percentDone := 1 },
    removeCall := .ok (), verifyFindsTorrent := true,
    stopCall := .ok (), unlinkResumeResult := .ok (),
    unlinkTorrentResult := .ok (), rmDownloadResult := .ok (),
    session := .ok { downloadDir := some "/downloads" },
    rmIncompleteResult := .ok () }

/-- Witness for C7: three no-op-remove removals from the idle state schedule
exactly one restart. -/
theorem removal_workaround_single_restart_witness :
    ((removeTorrent workaroundEnv true (removeTorrent workaroundEnv true
        (removeTorrent workaroundEnv true restartIdle).2).2).2).restartsScheduled = 1 := by
  have h := removal_workaround_single_restart workaroundEnv workaroundEnv workaroundEnv
    true restartIdle rfl (by decide) (by decide) (by decide)
  simpa using h.2.1

/-! ## `transmission.js` (DiskMonitor): disk usage and auto-removal

The ownership records live in `torrent-metadata.js` (CRUD glue); the monitor
only reads the map it returns, so the map is an input here
(`metadata : String → Option TorrentMeta`), and deleting the record of each
removed torrent is part of the per-candidate removal step. -/

/-- An ownership record as the monitor reads it
(`metadata[t.hashString]`).  Timestamps are modelled as numbers ordered as
the ISO date strings the code compares via `new Date`. -/
structure TorrentMeta where
  user_id : Nat := 0
  added_at : Option Nat := none
  block_auto_remove : Bool := false
deriving DecidableEq

/-- The `statfs` result fields used by `getDiskUsage`. -/
structure StatFs where
  blocks : Nat
  bsize : Nat
  bavail : Nat
deriving DecidableEq

/-- The disk-usage snapshot. -/
structure DiskUsage where
  total : Nat
  used : Int
  free : Nat
  freePercent : ℚ
deriving DecidableEq

/-- Function `getDiskUsage(path)`: compute from `statfs`, or — when the measurement
throws (`statfs` unavailable on the host) — return the fixed placeholder
with exactly 10% free. -/
def getDiskUsage (res : Option StatFs) : DiskUsage :=
  match res with
  | some s =>
    { total := s.blocks * s.bsize,
      used := (s.blocks * s.bsize : Int) - (s.bavail * s.bsize : Int),
      free := s.bavail * s.bsize,
      freePercent := ((s.bavail * s.bsize : ℚ) / (s.blocks * s.bsize : ℚ)) * 100 }
  | none =>
    { total := 1000000000000, used := 900000000000,
      free := 100000000000, freePercent := 10 }

/-- A filtered torrent paired with its effective acquisition timestamp. -/
structure Candidate where
  torrent : EngineTorrent
  added_at : Nat
deriving DecidableEq

/-- The eviction sort order: ascending acquisition timestamp (oldest
first). -/
def candLE (a b : Candidate) : Prop := a.added_at ≤ b.added_at

instance : DecidableRel candLE := fun a b => Nat.decLe a.added_at b.added_at

instance : IsTotal Candidate candLE := ⟨fun a b => Nat.le_total a.added_at b.added_at⟩

instance : IsTrans Candidate candLE := ⟨fun _ _ _ => Nat.le_trans⟩

/-- The candidate filter: completed (`percentDone === 1`) and not blocked
from auto-removal (`!meta || !meta.block_auto_remove` — no ownership record
still makes the torrent eligible). -/
def torrentEligible (metadata : String → Option TorrentMeta)
    (t : EngineTorrent) : Bool :=
  decide (t.percentDone = 1) &&
  (match metadata t.hashString with
   | some m => !m.block_auto_remove
   | none => true)

/-- The candidate mapping: attach `meta?.added_at || now` as the effective
timestamp (a missing record or timestamp sorts as "now", i.e. last). -/
def candidateOf (metadata : String → Option TorrentMeta) (now : Nat)
    (t : EngineTorrent) : Candidate :=
  { torrent := t,
    added_at := ((metadata t.hashString).bind (fun m => m.added_at)).getD now }

/-- Function `getAutoRemovalCandidates()`: filter, map, and sort oldest-first (the JS
`Array.sort` comparator `new Date(a.added_at) - new Date(b.added_at)`,
modelled by a stable sort on the timestamp). -/
def getAutoRemovalCandidates (torrents : List EngineTorrent)
    (metadata : String → Option TorrentMeta) (now : Nat) : List Candidate :=
  List.insertionSort candLE
    ((torrents.filter (torrentEligible metadata)).map (candidateOf metadata now))

/-- The report `autoRemoveOldestTorrents` resolves with. -/
structure EvictReport where
  removed : Nat
  torrents : List Candidate
  message : String
deriving DecidableEq

/-- The removal loop: remove one candidate at a time (engine removal with
file deletion plus ownership-record deletion, jointly `stepOk`; a failure is
logged and skipped), re-measure free space after each successful removal
(`statfsAfter k` is the measurement after `k` successful removals) and stop
as soon as the threshold is reached. -/
def autoRemoveLoop (threshold : ℚ) (statfsAfter : Nat → Option StatFs)
    (stepOk : Candidate → Bool) :
    List Candidate → Nat → List Candidate → List Candidate
  | [], _, removedAcc => removedAcc
  | c :: rest, k, removedAcc =>
    if stepOk c then
      let removedAcc' := removedAcc ++ [c]
      if (getDiskUsage (statfsAfter (k + 1))).freePercent ≥ threshold then removedAcc'
      else autoRemoveLoop threshold statfsAfter stepOk rest (k + 1) removedAcc'
    else autoRemoveLoop threshold statfsAfter stepOk rest k removedAcc

/-- Function `autoRemoveOldestTorrents()`: measure free space; do nothing at or above
the threshold; otherwise build the candidate set, report if it is empty, and
run the removal loop. -/
def autoRemoveOldestTorrents (threshold : ℚ) (statfsAfter : Nat → Option StatFs)
    (stepOk : Candidate → Bool) (torrents : List EngineTorrent)
    (metadata : String → Option TorrentMeta) (now : Nat) : EvictReport :=
  let usage0 := getDiskUsage (statfsAfter 0)
  if usage0.freePercent ≥ threshold then
    { removed := 0, torrents := [], message := "Disk space above threshold" }
  else
    let candidates := getAutoRemovalCandidates torrents metadata now
    if candidates.isEmpty then
      { removed := 0, torrents := [], message := "No eligible torrents to remove" }
    else
      let removed := autoRemoveLoop threshold statfsAfter stepOk candidates 0 []
      { removed := removed.length, torrents := removed,
        message := "Removed " ++ toString removed.length ++ " torrent(s)" }

/-- With at least three candidates, all removals succeeding, and the free
space reaching the threshold exactly after the third removal, the loop
removes the first three candidates, in order, and stops. -/
theorem autoRemoveLoop_three (threshold : ℚ) (statfsAfter : Nat → Option StatFs)
    (stepOk : Candidate → Bool) (cs : List Candidate)
    (hlen : 3 ≤ cs.length)
    (hok : ∀ c, stepOk c = true)
    (m1 : ¬ (getDiskUsage (statfsAfter 1)).freePercent ≥ threshold)
    (m2 : ¬ (getDiskUsage (statfsAfter 2)).freePercent ≥ threshold)
    (m3 : (getDiskUsage (statfsAfter 3)).freePercent ≥ threshold) :
    autoRemoveLoop threshold statfsAfter stepOk cs 0 [] = cs.take 3 := by
  match cs, hlen with
  | a :: b :: c :: rest, _ =>
    simp [autoRemoveLoop, hok, m1, m2, m3]

/-- C3: The monitor's candidate set is exactly the completed
(`percentDone = 1`) torrents not flagged exempt (absence of an ownership
record keeps a torrent eligible), ordered oldest-first by effective
acquisition timestamp; and in an under-threshold pass over at least three
candidates, with the simulated free-space sequence crossing the threshold
only after the third removal, exactly the three oldest are removed, oldest
first, and the pass stops. -/
theorem autoRemove_eviction_correct :
    (∀ (torrents : List EngineTorrent) (metadata : String → Option TorrentMeta)
       (now : Nat) (c : Candidate),
      c ∈ getAutoRemovalCandidates torrents metadata now ↔
        ∃ t, t ∈ torrents ∧ torrentEligible metadata t = true ∧
          c = candidateOf metadata now t)
  ∧ (∀ (torrents : List EngineTorrent) (metadata : String → Option TorrentMeta)
       (now : Nat),
      List.Sorted candLE (getAutoRemovalCandidates torrents metadata now))
  ∧ (∀ (threshold : ℚ) (statfsAfter : Nat → Option StatFs)
       (stepOk : Candidate → Bool) (torrents : List EngineTorrent)
       (metadata : String → Option TorrentMeta) (now : Nat),
      (∀ c, stepOk c = true) →
      3 ≤ (getAutoRemovalCandidates torrents metadata now).length →
      ¬ (getDiskUsage (statfsAfter 0)).freePercent ≥ threshold →
      ¬ (getDiskUsage (statfsAfter 1)).freePercent ≥ threshold →
      ¬ (getDiskUsage (statfsAfter 2)).freePercent ≥ threshold →
      (getDiskUsage (statfsAfter 3)).freePercent ≥ threshold →
      autoRemoveOldestTorrents threshold statfsAfter stepOk torrents metadata now =
        { removed := 3,
          torrents := (getAutoRemovalCandidates torrents metadata now).take 3,
          message := "Removed 3 torrent(s)" }) := by
  refine ⟨?_, ?_, ?_⟩
  · intro torrents metadata now c
    constructor
    · intro hmem
      have hmem' := (List.perm_insertionSort candLE
        ((torrents.filter (torrentEligible metadata)).map
          (candidateOf metadata now))).mem_iff.mp hmem
      obtain ⟨t, ht, rfl⟩ := List.mem_map.mp hmem'
      exact ⟨t, (List.mem_filter.mp ht).1, (List.mem_filter.mp ht).2, rfl⟩
    · rintro ⟨t, ht, hel, rfl⟩
      apply (List.perm_insertionSort candLE _).mem_iff.mpr
      exact List.mem_map.mpr ⟨t, List.mem_filter.mpr ⟨ht, hel⟩, rfl⟩
  · intro torrents metadata now
    exact List.sorted_insertionSort candLE _
  · intro threshold statfsAfter stepOk torrents metadata now hok hlen hm0 hm1 hm2 hm3
    have hloop := autoRemoveLoop_three threshold statfsAfter stepOk
      (getAutoRemovalCandidates torrents metadata now) hlen hok hm1 hm2 hm3
    have hlen3 : ((getAutoRemovalCandidates torrents metadata now).take 3).length = 3 := by
      rw [List.length_take]
      omega
    have hne : (getAutoRemovalCandidates torrents metadata now).isEmpty = false := by
      rcases h : getAutoRemovalCandidates torrents metadata now with _ | ⟨a, l⟩
      · rw [h] at hlen; simp at hlen
      · simp [h]
    simp only [autoRemoveOldestTorrents]
    rw [if_neg hm0, if_neg (by simp [hne]), hloop, hlen3]
    simp only [EvictReport.mk.injEq]
    exact ⟨trivial, trivial, by decide⟩

/-- Four completed, non-exempt torrents with distinct timestamps. -/
def torrentsW : List EngineTorrent :=
  [{ id := 1, name := "A", hashString := "h1", percentDone := 1, totalSize := 100 },
   { id := 2, name := "B", hashString := "h2", percentDone := 1, totalSize := 100 },
   { id := 3, name := "C", hashString := "h3", percentDone := 1, totalSize := 100 },
   { id := 4, name := "D", hashString := "h4", percentDone := 1, totalSize := 100 }]

/-- Ownership records for `torrentsW`: acquisition order `h1 < h2 < h3 < h4`,
none exempt. -/
def metadataW : String → Option TorrentMeta := fun h =>
  if h == "h1" then some { added_at := some 100 }
  else if h == "h2" then some { added_at := some 200 }
  else if h == "h3" then some { added_at := some 300 }
  else if h == "h4" then some { added_at := some 400 }
  else none

/-- A simulated free-space sequence: 5% free until three removals have
happened, then 50%. -/
def statfsW : Nat → Option StatFs := fun k =>
  if 3 ≤ k then some { blocks := 100, bsize := 1, bavail := 50 }
  else some { blocks := 100, bsize := 1, bavail := 5 }

/-- Evaluation of the simulated measurements below the crossing point. -/
theorem statfsW_freePercent_low (k : Nat) (h : k < 3) :
    (getDiskUsage (statfsW k)).freePercent = 5 := by
  have hk : statfsW k = some { blocks := 100, bsize := 1, bavail := 5 } := by
    simp only [statfsW, if_neg (by omega : ¬ 3 ≤ k)]
  rw [hk]
  norm_num [getDiskUsage]

/-- Evaluation of the simulated measurement after the third removal. -/
theorem statfsW_freePercent_high :
    (getDiskUsage (statfsW 3)).freePercent = 50 := by
  norm_num [statfsW, getDiskUsage]

/-- Witness for C3: on the concrete four-torrent configuration exactly the
three oldest are removed, oldest first. -/
theorem autoRemove_eviction_correct_witness :
    autoRemoveOldestTorrents 10 statfsW (fun _ => true) torrentsW metadataW 999 =
      { removed := 3,
        torrents := (getAutoRemovalCandidates torrentsW metadataW 999).take 3,
        message := "Removed 3 torrent(s)" } :=
  autoRemove_eviction_correct.2.2 10 statfsW (fun _ => true) torrentsW metadataW 999
    (fun _ => rfl) (by decide)
    (by rw [statfsW_freePercent_low 0 (by decide)]; decide)
    (by rw [statfsW_freePercent_low 1 (by decide)]; decide)
    (by rw [statfsW_freePercent_low 2 (by decide)]; decide)
    (by rw [statfsW_freePercent_high]; decide)

/-- Default `parseFloat(process.env.DISK_THRESHOLD || '10')`: the default
threshold. -/
def defaultDiskThreshold : ℚ := 10

/-- C10: When the free-space measurement fails, `getDiskUsage` returns
the fixed placeholder whose free fraction is exactly 10 percent; since
eviction runs only when the free fraction is strictly below the threshold
and the default threshold is 10, an eviction pass under measurement failure
with the default threshold reports the disk above threshold and removes
nothing. -/
theorem diskUsage_placeholder_above_threshold :
    (getDiskUsage none).freePercent = 10
  ∧ (∀ (statfsAfter : Nat → Option StatFs) (stepOk : Candidate → Bool)
       (torrents : List EngineTorrent) (metadata : String → Option TorrentMeta)
       (now : Nat),
      statfsAfter 0 = none →
      autoRemoveOldestTorrents defaultDiskThreshold statfsAfter stepOk
        torrents metadata now =
        { removed := 0, torrents := [], message := "Disk space above threshold" }) := by
  refine ⟨rfl, ?_⟩
  intro statfsAfter stepOk torrents metadata now h0
  simp only [autoRemoveOldestTorrents, h0]
  rw [if_pos]
  exact le_refl (10 : ℚ)

/-- Witness for C10: a measurement that always fails leads to the
above-threshold report with zero removals. -/
theorem diskUsage_placeholder_above_threshold_witness :
    autoRemoveOldestTorrents defaultDiskThreshold (fun _ => none) (fun _ => true)
        torrentsW metadataW 999 =
      { removed := 0, torrents := [], message := "Disk space above threshold" } :=
  diskUsage_placeholder_above_threshold.2 (fun _ => none) (fun _ => true)
    torrentsW metadataW 999 rfl
